import Mathlib

/-!
Shallow embedding of the geometric core of SAHGutils
(`sahgutils/io/arraytools.py`): the coordinate indexer `find_indices`
and the `Raster` wrapper with its `subset` and `sample` methods.

Modelling conventions:
* Python floats are modelled as exact rationals (`ℚ`); Python ints as `ℤ`.
* NumPy arrays are modelled as views (`NDView`) into a heap of 2-D buffers
  (`Heap`), so that aliasing between arrays is expressible: basic slicing,
  `np.asarray` and `.view(cls)` all return a new view on the *same* buffer,
  per NumPy semantics (no copy).
* Raised Python exceptions are modelled with `Except PyError`.
-/

namespace SAHGutils

/-- A scalar-or-array argument, mirroring the dynamic values accepted by
`find_indices` (`np.asarray(lats).shape` is `()` exactly for a scalar). -/
inductive PyVal where
  | scalar (q : ℚ)
  | vec (qs : List ℚ)
  deriving Repr, DecidableEq

/-- A scalar-or-list result of `find_indices`. -/
inductive PyIdx where
  | scalar (i : ℤ)
  | vec (xs : List ℤ)
  deriving Repr, DecidableEq

/-- Lower latitude edge of the grid envelope: `min_lat = lat0 - 0.5*dlat`
(arraytools.py line 26). -/
def minLat (lat0 dlat : ℚ) : ℚ := lat0 - (1/2) * dlat

/-- Upper latitude edge: `max_lat = min_lat + nrows*dlat` (line 27). -/
def maxLat (lat0 dlat : ℚ) (nrows : ℤ) : ℚ := minLat lat0 dlat + nrows * dlat

/-- Lower longitude edge: `min_lon = lon0 - 0.5*dlon` (line 28). -/
def minLon (lon0 dlon : ℚ) : ℚ := lon0 - (1/2) * dlon

/-- Upper longitude edge: `max_lon = min_lon + ncols*dlon` (line 29). -/
def maxLon (lon0 dlon : ℚ) (ncols : ℤ) : ℚ := minLon lon0 dlon + ncols * dlon

/-- Row index of one latitude.  This is the shared body of the per-latitude
loop (arraytools.py lines 33-44) and of the scalar branch (lines 60-70),
which are textually identical in the source: first the out-of-region test,
then the first-row (top) band, then the last-row (bottom) band, then the
interior formula `int(floor(nrows - (lat - min_lat)/dlat))`. -/
def rowOf (lat0 dlat : ℚ) (nrows : ℤ) (lat : ℚ) : ℤ :=
  if lat < minLat lat0 dlat ∨ maxLat lat0 dlat nrows < lat then -999
  else if maxLat lat0 dlat nrows - dlat ≤ lat ∧ lat ≤ maxLat lat0 dlat nrows then 0
  else if minLat lat0 dlat ≤ lat ∧ lat ≤ minLat lat0 dlat + dlat then nrows - 1
  else ⌊(nrows : ℚ) - (lat - minLat lat0 dlat) / dlat⌋

/-- Column index of one longitude.  Shared body of the per-longitude loop
(arraytools.py lines 47-58) and of the scalar branch (lines 72-82): the
out-of-region test, then the *first*-column band, then the last-column
band (note: the order of the two band checks is the reverse of the row
case), then the interior formula `int(floor((lon - min_lon)/dlon))`. -/
def colOf (lon0 dlon : ℚ) (ncols : ℤ) (lon : ℚ) : ℤ :=
  if lon < minLon lon0 dlon ∨ maxLon lon0 dlon ncols < lon then -999
  else if minLon lon0 dlon ≤ lon ∧ lon ≤ minLon lon0 dlon + dlon then 0
  else if maxLon lon0 dlon ncols - dlon ≤ lon ∧ lon ≤ maxLon lon0 dlon ncols then ncols - 1
  else ⌊(lon - minLon lon0 dlon) / dlon⌋

/-- The coordinate indexer `find_indices` (arraytools.py lines 11-84).
The list path is taken exactly when both inputs are arrays
(`Lats.shape != () and Lons.shape != ()`); when both are scalars the
scalar path runs the same per-point logic once.  A mixed scalar/array
call would run the scalar comparison path on an array value, whose
behaviour is not meaningful; it is left unmodelled (`none`). -/
def find_indices (lats lons : PyVal) (lat0 lon0 dlat dlon : ℚ)
    (nrows ncols : ℤ) : Option (PyIdx × PyIdx) :=
  match lats, lons with
  | .vec ls, .vec os =>
      some (.vec (ls.map (rowOf lat0 dlat nrows)),
            .vec (os.map (colOf lon0 dlon ncols)))
  | .scalar la, .scalar lo =>
      some (.scalar (rowOf lat0 dlat nrows la),
            .scalar (colOf lon0 dlon ncols lo))
  | _, _ => none

/-- NumPy element dtypes relevant here: floats (exact in this model) and
unsigned integers of width `w`, which wrap modulo `2 ^ w`. -/
inductive DType where
  | float
  | uint (w : ℕ)
  deriving Repr, DecidableEq

/-- A view into one 2-D buffer of the heap: buffer id, row/column offsets
of the view inside the buffer, and the view shape.  NumPy basic slicing,
`np.asarray` and `ndarray.view` all yield views sharing the buffer id. -/
structure NDView where
  buf : ℕ
  r0 : ℕ
  c0 : ℕ
  rows : ℕ
  cols : ℕ
  dtype : DType
  deriving Repr, DecidableEq

/-- The buffer heap: buffer id → row → column → stored value. -/
def Heap : Type := ℕ → ℕ → ℕ → ℚ

/-- Read element `(i, j)` of a view. -/
def readView (h : Heap) (v : NDView) (i j : ℕ) : ℚ :=
  h v.buf (v.r0 + i) (v.c0 + j)

/-- Write element `(i, j)` of a view in place: every view on the same
buffer observes the update. -/
def writeView (h : Heap) (v : NDView) (i j : ℕ) (q : ℚ) : Heap :=
  fun b r c => if b = v.buf ∧ r = v.r0 + i ∧ c = v.c0 + j then q else h b r c

/-- Resolve a Python slice endpoint against an axis of length `n`:
negative endpoints count from the end (clamped below at 0), nonnegative
ones are clamped above at `n`. -/
def resolveIdx (n : ℕ) (i : ℤ) : ℕ :=
  if i < 0 then (i + n).toNat else min i.toNat n

/-- Basic 2-D slicing `v[r1:r2, c1:c2]` with Python endpoint semantics:
the result is a view on the same buffer (no copy), with adjusted offsets
and shape (an empty axis when the resolved stop precedes the start). -/
def pySlice (v : NDView) (r1 r2 c1 c2 : ℤ) : NDView :=
  { buf := v.buf, dtype := v.dtype,
    r0 := v.r0 + resolveIdx v.rows r1,
    c0 := v.c0 + resolveIdx v.cols c1,
    rows := resolveIdx v.rows r2 - resolveIdx v.rows r1,
    cols := resolveIdx v.cols c2 - resolveIdx v.cols c1 }

/-- Resolve a single (integer fancy-indexing) index: a negative index
counts from the end of the axis. -/
def pyIndex (n : ℕ) (i : ℤ) : ℕ :=
  if i < 0 then (i + n).toNat else i.toNat

/-- Element gather `v[r, c]` with integer indices, as used by the fancy
indexing step of `Raster.sample`. -/
def fancyGet (h : Heap) (v : NDView) (r c : ℤ) : ℚ :=
  readView h v (pyIndex v.rows r) (pyIndex v.cols c)

/-- Cast an integer scalar into a dtype: exact for floats, wrapped modulo
`2 ^ w` for a `w`-bit unsigned integer dtype. -/
def dtypeScalar (d : DType) (z : ℤ) : ℚ :=
  match d with
  | .float => (z : ℚ)
  | .uint w => ((z % (2 ^ w : ℤ) : ℤ) : ℚ)

/-- Python exceptions that the modelled code can raise. -/
inductive PyError where
  | notImplementedError (msg : String)
  | nameError (msg : String)
  | valueError (msg : String)
  deriving Repr, DecidableEq

/-- The `Raster` object: the underlying buffer view plus the grid
attributes set by `Raster.__new__` (arraytools.py lines 195-213). -/
structure Raster where
  view : NDView
  rows : ℕ
  cols : ℕ
  x0 : ℚ
  y0 : ℚ
  dx : ℚ
  dy : ℚ
  origin : String
  deriving Repr, DecidableEq

/-- The constructor `Raster.__new__` (arraytools.py lines 195-213): any
origin other than `Lower` raises `NotImplementedError`; otherwise the
data is reinterpreted as a Raster *without copying*
(`np.asarray(data).view(cls)` keeps the same buffer) and `rows`/`cols`
are unpacked from the buffer shape. -/
def Raster.new (data : NDView) (x0 y0 dx dy : ℚ) (origin : String) :
    Except PyError Raster :=
  if origin ≠ "Lower" then
    .error (.notImplementedError (origin ++ " is not a suitable origin"))
  else
    .ok { view := data, rows := data.rows, cols := data.cols,
          x0 := x0, y0 := y0, dx := dx, dy := dy, origin := origin }

/-- The method `Raster.subset` (arraytools.py lines 230-278): one 2-point
`find_indices` query on `Y = [max_y, min_y]`, `X = [min_x, max_x]`, then
(for origin `Lower`; otherwise `new_x0` is unbound and the later use
raises `NameError`) a basic slice `self[min_row:max_row, min_col:max_col]`
handed to the `Raster` constructor with the recomputed origin. -/
def Raster.subset (self : Raster) (min_x min_y max_x max_y : ℚ) :
    Except PyError Raster :=
  let Y : List ℚ := [max_y, min_y]
  let X : List ℚ := [min_x, max_x]
  match find_indices (.vec Y) (.vec X) self.y0 self.x0 self.dy self.dx
      (self.rows : ℤ) (self.cols : ℤ) with
  | some (.vec [min_row, max_row], .vec [min_col, max_col]) =>
      if self.origin = "Lower" then
        let new_x0 := self.x0 + (min_col : ℚ) * self.dx
        let new_y0 := self.y0 + (((self.rows : ℤ) - 1 - max_row : ℤ) : ℚ) * self.dy
        Raster.new (pySlice self.view min_row max_row min_col max_col)
          new_x0 new_y0 self.dx self.dy self.origin
      else
        .error (.nameError "name new_x0 is not defined")
  | _ => .error (.valueError "unexpected unpacking shape")

/-- Boolean-mask selection `a[mask]`: keep the elements at positions where
the mask is true, in order. -/
def maskFilter : List ℤ → List Bool → List ℤ
  | _, [] => []
  | [], _ => []
  | a :: xs, m :: ms => if m then a :: maskFilter xs ms else maskFilter xs ms

/-- Masked assignment `result[mask] = vals` into an array prefilled with
`fill`: positions with a false mask keep `fill`, positions with a true
mask consume the next value of `vals` in order. -/
def scatterFill : List Bool → List ℚ → ℚ → List ℚ
  | [], _, _ => []
  | false :: ms, vs, f => f :: scatterFill ms vs f
  | true :: ms, [], f => f :: scatterFill ms [] f
  | true :: ms, v :: vs, f => v :: scatterFill ms vs f

/-- The method `Raster.sample` (arraytools.py lines 280-319): a vector
`find_indices` query with `lats := y`, `lons := x` (guarded by
`self.origin == 'Lower'`; otherwise `row_indices` is unbound and a
`NameError` is raised), then `mask = (rows != -999) & (cols != -999)`,
compression of the index vectors by the mask, and
`result = np.ones(len(x), dtype=self.dtype); result *= -999;
result[mask] = self[rows, cols]`.  Elementwise operations on index
vectors of different lengths are a broadcast error (general NumPy
broadcasting beyond equal lengths is out of scope here). -/
def Raster.sample (self : Raster) (h : Heap) (x y : List ℚ) :
    Except PyError (List ℚ) :=
  if self.origin = "Lower" then
    match find_indices (.vec y) (.vec x) self.y0 self.x0 self.dy self.dx
        (self.rows : ℤ) (self.cols : ℤ) with
    | some (.vec row_indices, .vec col_indices) =>
        if row_indices.length = col_indices.length then
          let mask := List.zipWith
            (fun r c => (r != (-999 : ℤ)) && (c != (-999 : ℤ)))
            row_indices col_indices
          let rsel := maskFilter row_indices mask
          let csel := maskFilter col_indices mask
          let gathered := List.zipWith (fun r c => fancyGet h self.view r c) rsel csel
          let fill := dtypeScalar self.view.dtype (1 * (-999))
          .ok (scatterFill mask gathered fill)
        else .error (.valueError "operands could not be broadcast together")
    | _ => .error (.valueError "unexpected result shape")
  else .error (.nameError "name row_indices is not defined")

/-! Concrete test fixtures used by witnesses and counterexamples. -/

/-- A heap whose buffer 0 holds the 2×2 array `[[10, 20], [30, 40]]`. -/
def testHeap : Heap := fun b r c =>
  if b = 0 then
    (if r = 0 ∧ c = 0 then 10 else if r = 0 ∧ c = 1 then 20
     else if r = 1 ∧ c = 0 then 30 else if r = 1 ∧ c = 1 then 40 else 0)
  else 0

/-- The full view of buffer 0 of `testHeap`. -/
def testView : NDView :=
  { buf := 0, r0 := 0, c0 := 0, rows := 2, cols := 2, dtype := .float }

/-- A 2×2 float Raster on `testView`, origin cell centre (0, 0), unit
spacing: the value at map point (x, y) is `testHeap` row `1 - y`, column
`x`. -/
def testRaster : Raster :=
  { view := testView, rows := 2, cols := 2,
    x0 := 0, y0 := 0, dx := 1, dy := 1, origin := "Lower" }

/-- A heap whose buffer 1 holds a 2×2 uint8 array of constant value 7. -/
def uintHeap : Heap := fun b _ _ => if b = 1 then 7 else 0

/-- A 2×2 uint8 Raster on buffer 1 of `uintHeap`, same geometry as
`testRaster`. -/
def uintRaster : Raster :=
  { view := { buf := 1, r0 := 0, c0 := 0, rows := 2, cols := 2, dtype := .uint 8 },
    rows := 2, cols := 2, x0 := 0, y0 := 0, dx := 1, dy := 1, origin := "Lower" }

/-- The Raster returned by `testRaster.subset 0 0 1 1`: the 1×1 slice
`[0:1, 0:1]` of buffer 0 — note it is a view on the *same* buffer. -/
def subTest : Raster :=
  { view := { buf := 0, r0 := 0, c0 := 0, rows := 1, cols := 1, dtype := .float },
    rows := 1, cols := 1, x0 := 0, y0 := 0, dx := 1, dy := 1, origin := "Lower" }

/-! Helper lemmas about the per-point row/column logic. -/

lemma minLat_le_band (lat0 dlat : ℚ) (nrows : ℤ) (hd : 0 < dlat) (hn : 0 < nrows) :
    minLat lat0 dlat ≤ maxLat lat0 dlat nrows - dlat := by
  have h1 : (1 : ℚ) ≤ (nrows : ℚ) := by exact_mod_cast hn
  simp only [minLat, maxLat]
  nlinarith

lemma band_le_maxLat (lat0 dlat : ℚ) (nrows : ℤ) (hd : 0 < dlat) (hn : 0 < nrows) :
    minLat lat0 dlat + dlat ≤ maxLat lat0 dlat nrows := by
  have h1 : (1 : ℚ) ≤ (nrows : ℚ) := by exact_mod_cast hn
  simp only [minLat, maxLat]
  nlinarith

lemma rowOf_top (lat0 dlat : ℚ) (nrows : ℤ) (lat : ℚ) (hd : 0 < dlat) (hn : 0 < nrows)
    (hb : maxLat lat0 dlat nrows - dlat ≤ lat ∧ lat ≤ maxLat lat0 dlat nrows) :
    rowOf lat0 dlat nrows lat = 0 := by
  have hout : ¬(lat < minLat lat0 dlat ∨ maxLat lat0 dlat nrows < lat) := by
    push_neg
    exact ⟨le_trans (minLat_le_band lat0 dlat nrows hd hn) hb.1, hb.2⟩
  simp only [rowOf, if_neg hout, if_pos hb]

lemma rowOf_bottom (lat0 dlat : ℚ) (nrows : ℤ) (lat : ℚ) (hd : 0 < dlat) (hn : 0 < nrows)
    (hb : minLat lat0 dlat ≤ lat ∧ lat ≤ minLat lat0 dlat + dlat)
    (hnt : ¬(maxLat lat0 dlat nrows - dlat ≤ lat ∧ lat ≤ maxLat lat0 dlat nrows)) :
    rowOf lat0 dlat nrows lat = nrows - 1 := by
  have hout : ¬(lat < minLat lat0 dlat ∨ maxLat lat0 dlat nrows < lat) := by
    push_neg
    exact ⟨hb.1, le_trans hb.2 (band_le_maxLat lat0 dlat nrows hd hn)⟩
  simp only [rowOf, if_neg hout, if_neg hnt, if_pos hb]

lemma rowOf_mid (lat0 dlat : ℚ) (nrows : ℤ) (lat : ℚ)
    (henv : minLat lat0 dlat ≤ lat ∧ lat ≤ maxLat lat0 dlat nrows)
    (hnt : ¬(maxLat lat0 dlat nrows - dlat ≤ lat ∧ lat ≤ maxLat lat0 dlat nrows))
    (hnb : ¬(minLat lat0 dlat ≤ lat ∧ lat ≤ minLat lat0 dlat + dlat)) :
    rowOf lat0 dlat nrows lat = ⌊(nrows : ℚ) - (lat - minLat lat0 dlat) / dlat⌋ := by
  have hout : ¬(lat < minLat lat0 dlat ∨ maxLat lat0 dlat nrows < lat) := by
    push_neg; exact henv
  simp only [rowOf, if_neg hout, if_neg hnt, if_neg hnb]

lemma rowOf_mid_bounds (lat0 dlat : ℚ) (nrows : ℤ) (lat : ℚ) (hd : 0 < dlat)
    (henv : minLat lat0 dlat ≤ lat ∧ lat ≤ maxLat lat0 dlat nrows)
    (hnt : ¬(maxLat lat0 dlat nrows - dlat ≤ lat ∧ lat ≤ maxLat lat0 dlat nrows))
    (hnb : ¬(minLat lat0 dlat ≤ lat ∧ lat ≤ minLat lat0 dlat + dlat)) :
    1 ≤ rowOf lat0 dlat nrows lat ∧ rowOf lat0 dlat nrows lat < nrows - 1 := by
  rw [rowOf_mid lat0 dlat nrows lat henv hnt hnb]
  have hlow : minLat lat0 dlat + dlat < lat := by
    rcases not_and_or.mp hnb with h | h
    · exact absurd henv.1 h
    · exact lt_of_not_le h
  have hhigh : lat < maxLat lat0 dlat nrows - dlat := by
    rcases not_and_or.mp hnt with h | h
    · exact lt_of_not_le h
    · exact absurd henv.2 h
  have hd1 : 1 < (lat - minLat lat0 dlat) / dlat := by
    rw [lt_div_iff₀ hd]; linarith
  have hd2 : (lat - minLat lat0 dlat) / dlat < (nrows : ℚ) - 1 := by
    rw [div_lt_iff₀ hd]
    have : maxLat lat0 dlat nrows = minLat lat0 dlat + nrows * dlat := rfl
    nlinarith [hhigh]
  constructor
  · rw [Int.le_floor]
    push_cast
    linarith
  · rw [Int.floor_lt]
    push_cast
    linarith

lemma rowOf_bounds (lat0 dlat : ℚ) (nrows : ℤ) (lat : ℚ) (hd : 0 < dlat) (hn : 0 < nrows)
    (hl : minLat lat0 dlat ≤ lat) (hu : lat ≤ maxLat lat0 dlat nrows) :
    0 ≤ rowOf lat0 dlat nrows lat ∧ rowOf lat0 dlat nrows lat < nrows := by
  by_cases ht : maxLat lat0 dlat nrows - dlat ≤ lat ∧ lat ≤ maxLat lat0 dlat nrows
  · rw [rowOf_top lat0 dlat nrows lat hd hn ht]; omega
  · by_cases hb : minLat lat0 dlat ≤ lat ∧ lat ≤ minLat lat0 dlat + dlat
    · rw [rowOf_bottom lat0 dlat nrows lat hd hn hb ht]; omega
    · have := rowOf_mid_bounds lat0 dlat nrows lat hd ⟨hl, hu⟩ ht hb
      omega

lemma rowOf_sentinel_iff (lat0 dlat : ℚ) (nrows : ℤ) (lat : ℚ) (hd : 0 < dlat) (hn : 0 < nrows) :
    rowOf lat0 dlat nrows lat = -999 ↔
      lat < minLat lat0 dlat ∨ maxLat lat0 dlat nrows < lat := by
  constructor
  · intro h
    by_contra hout
    push_neg at hout
    have := rowOf_bounds lat0 dlat nrows lat hd hn hout.1 hout.2
    omega
  · intro h
    simp only [rowOf, if_pos h]

lemma minLon_le_band (lon0 dlon : ℚ) (ncols : ℤ) (hd : 0 < dlon) (hn : 0 < ncols) :
    minLon lon0 dlon ≤ maxLon lon0 dlon ncols - dlon := by
  have h1 : (1 : ℚ) ≤ (ncols : ℚ) := by exact_mod_cast hn
  simp only [minLon, maxLon]
  nlinarith

lemma band_le_maxLon (lon0 dlon : ℚ) (ncols : ℤ) (hd : 0 < dlon) (hn : 0 < ncols) :
    minLon lon0 dlon + dlon ≤ maxLon lon0 dlon ncols := by
  have h1 : (1 : ℚ) ≤ (ncols : ℚ) := by exact_mod_cast hn
  simp only [minLon, maxLon]
  nlinarith

lemma colOf_first (lon0 dlon : ℚ) (ncols : ℤ) (lon : ℚ) (hd : 0 < dlon) (hn : 0 < ncols)
    (hb : minLon lon0 dlon ≤ lon ∧ lon ≤ minLon lon0 dlon + dlon) :
    colOf lon0 dlon ncols lon = 0 := by
  have hout : ¬(lon < minLon lon0 dlon ∨ maxLon lon0 dlon ncols < lon) := by
    push_neg
    exact ⟨hb.1, le_trans hb.2 (band_le_maxLon lon0 dlon ncols hd hn)⟩
  simp only [colOf, if_neg hout, if_pos hb]

lemma colOf_last (lon0 dlon : ℚ) (ncols : ℤ) (lon : ℚ) (hd : 0 < dlon) (hn : 0 < ncols)
    (hb : maxLon lon0 dlon ncols - dlon ≤ lon ∧ lon ≤ maxLon lon0 dlon ncols)
    (hnf : ¬(minLon lon0 dlon ≤ lon ∧ lon ≤ minLon lon0 dlon + dlon)) :
    colOf lon0 dlon ncols lon = ncols - 1 := by
  have hout : ¬(lon < minLon lon0 dlon ∨ maxLon lon0 dlon ncols < lon) := by
    push_neg
    exact ⟨le_trans (minLon_le_band lon0 dlon ncols hd hn) hb.1, hb.2⟩
  simp only [colOf, if_neg hout, if_neg hnf, if_pos hb]

lemma colOf_mid (lon0 dlon : ℚ) (ncols : ℤ) (lon : ℚ)
    (henv : minLon lon0 dlon ≤ lon ∧ lon ≤ maxLon lon0 dlon ncols)
    (hnf : ¬(minLon lon0 dlon ≤ lon ∧ lon ≤ minLon lon0 dlon + dlon))
    (hnl : ¬(maxLon lon0 dlon ncols - dlon ≤ lon ∧ lon ≤ maxLon lon0 dlon ncols)) :
    colOf lon0 dlon ncols lon = ⌊(lon - minLon lon0 dlon) / dlon⌋ := by
  have hout : ¬(lon < minLon lon0 dlon ∨ maxLon lon0 dlon ncols < lon) := by
    push_neg; exact henv
  simp only [colOf, if_neg hout, if_neg hnf, if_neg hnl]

lemma colOf_mid_bounds (lon0 dlon : ℚ) (ncols : ℤ) (lon : ℚ) (hd : 0 < dlon)
    (henv : minLon lon0 dlon ≤ lon ∧ lon ≤ maxLon lon0 dlon ncols)
    (hnf : ¬(minLon lon0 dlon ≤ lon ∧ lon ≤ minLon lon0 dlon + dlon))
    (hnl : ¬(maxLon lon0 dlon ncols - dlon ≤ lon ∧ lon ≤ maxLon lon0 dlon ncols)) :
    1 ≤ colOf lon0 dlon ncols lon ∧ colOf lon0 dlon ncols lon < ncols - 1 := by
  rw [colOf_mid lon0 dlon ncols lon henv hnf hnl]
  have hlow : minLon lon0 dlon + dlon < lon := by
    rcases not_and_or.mp hnf with h | h
    · exact absurd henv.1 h
    · exact lt_of_not_le h
  have hhigh : lon < maxLon lon0 dlon ncols - dlon := by
    rcases not_and_or.mp hnl with h | h
    · exact lt_of_not_le h
    · exact absurd henv.2 h
  have hd1 : 1 < (lon - minLon lon0 dlon) / dlon := by
    rw [lt_div_iff₀ hd]; linarith
  have hd2 : (lon - minLon lon0 dlon) / dlon < (ncols : ℚ) - 1 := by
    rw [div_lt_iff₀ hd]
    have : maxLon lon0 dlon ncols = minLon lon0 dlon + ncols * dlon := rfl
    nlinarith [hhigh]
  constructor
  · rw [Int.le_floor]
    push_cast
    linarith
  · rw [Int.floor_lt]
    push_cast
    linarith

lemma colOf_bounds (lon0 dlon : ℚ) (ncols : ℤ) (lon : ℚ) (hd : 0 < dlon) (hn : 0 < ncols)
    (hl : minLon lon0 dlon ≤ lon) (hu : lon ≤ maxLon lon0 dlon ncols) :
    0 ≤ colOf lon0 dlon ncols lon ∧ colOf lon0 dlon ncols lon < ncols := by
  by_cases hf : minLon lon0 dlon ≤ lon ∧ lon ≤ minLon lon0 dlon + dlon
  · rw [colOf_first lon0 dlon ncols lon hd hn hf]; omega
  · by_cases hl2 : maxLon lon0 dlon ncols - dlon ≤ lon ∧ lon ≤ maxLon lon0 dlon ncols
    · rw [colOf_last lon0 dlon ncols lon hd hn hl2 hf]; omega
    · have := colOf_mid_bounds lon0 dlon ncols lon hd ⟨hl, hu⟩ hf hl2
      omega

lemma colOf_sentinel_iff (lon0 dlon : ℚ) (ncols : ℤ) (lon : ℚ) (hd : 0 < dlon) (hn : 0 < ncols) :
    colOf lon0 dlon ncols lon = -999 ↔
      lon < minLon lon0 dlon ∨ maxLon lon0 dlon ncols < lon := by
  constructor
  · intro h
    by_contra hout
    push_neg at hout
    have := colOf_bounds lon0 dlon ncols lon hd hn hout.1 hout.2
    omega
  · intro h
    simp only [colOf, if_pos h]

/-! Helper lemmas about `Raster.subset` and `Raster.sample`. -/

lemma subset_eq (R : Raster) (min_x min_y max_x max_y : ℚ) (ho : R.origin = "Lower") :
    R.subset min_x min_y max_x max_y =
      Raster.new
        (pySlice R.view (rowOf R.y0 R.dy (R.rows : ℤ) max_y) (rowOf R.y0 R.dy (R.rows : ℤ) min_y)
          (colOf R.x0 R.dx (R.cols : ℤ) min_x) (colOf R.x0 R.dx (R.cols : ℤ) max_x))
        (R.x0 + ((colOf R.x0 R.dx (R.cols : ℤ) min_x : ℤ) : ℚ) * R.dx)
        (R.y0 + ((((R.rows : ℤ) - 1 - rowOf R.y0 R.dy (R.rows : ℤ) min_y) : ℤ) : ℚ) * R.dy)
        R.dx R.dy R.origin := by
  simp only [Raster.subset, find_indices, List.map, ho, if_true]

lemma subset_err (R : Raster) (min_x min_y max_x max_y : ℚ) (ho : ¬R.origin = "Lower") :
    R.subset min_x min_y max_x max_y = .error (.nameError "name new_x0 is not defined") := by
  simp only [Raster.subset, find_indices, List.map, if_neg ho]

lemma resolveIdx_of_nonneg (n : ℕ) (i : ℤ) (h0 : 0 ≤ i) (hn : i ≤ (n : ℤ)) :
    resolveIdx n i = i.toNat := by
  simp only [resolveIdx, if_neg (not_lt.mpr h0)]
  omega

lemma scatter_zip (g : ℤ → ℤ → ℚ) (f : ℚ) :
    ∀ (rs cs : List ℤ),
      scatterFill (List.zipWith (fun r c => (r != (-999 : ℤ)) && (c != (-999 : ℤ))) rs cs)
        (List.zipWith g
          (maskFilter rs (List.zipWith (fun r c => (r != (-999 : ℤ)) && (c != (-999 : ℤ))) rs cs))
          (maskFilter cs (List.zipWith (fun r c => (r != (-999 : ℤ)) && (c != (-999 : ℤ))) rs cs)))
        f
      = List.zipWith (fun r c => if r ≠ -999 ∧ c ≠ -999 then g r c else f) rs cs := by
  intro rs
  induction rs with
  | nil => intro cs; cases cs <;> rfl
  | cons r rs ih =>
    intro cs
    cases cs with
    | nil => rfl
    | cons c cs =>
      simp only [List.zipWith]
      rcases hm : ((r != (-999 : ℤ)) && (c != (-999 : ℤ))) with _ | _
      · have hcond : ¬(r ≠ -999 ∧ c ≠ -999) := by
          simpa [not_and_or, bne_iff_ne] using hm
        simp only [maskFilter, hm, Bool.false_eq_true, ite_false, scatterFill, if_neg hcond]
        exact congrArg _ (ih cs)
      · have hcond : r ≠ -999 ∧ c ≠ -999 := by
          simpa [bne_iff_ne] using hm
        simp only [maskFilter, hm, ite_true, List.zipWith, scatterFill, if_pos hcond]
        exact congrArg _ (ih cs)

lemma sample_spec (R : Raster) (h : Heap) (x y : List ℚ) (ho : R.origin = "Lower")
    (hlen : x.length = y.length) :
    R.sample h x y = .ok (List.zipWith
      (fun yv xv =>
        if rowOf R.y0 R.dy (R.rows : ℤ) yv ≠ -999 ∧ colOf R.x0 R.dx (R.cols : ℤ) xv ≠ -999
        then fancyGet h R.view (rowOf R.y0 R.dy (R.rows : ℤ) yv) (colOf R.x0 R.dx (R.cols : ℤ) xv)
        else dtypeScalar R.view.dtype (1 * (-999))) y x) := by
  simp only [Raster.sample, find_indices, ho, if_true]
  rw [if_pos (by simp [hlen])]
  rw [scatter_zip (fun r c => fancyGet h R.view r c) (dtypeScalar R.view.dtype (1 * (-999)))
    (y.map (rowOf R.y0 R.dy (R.rows : ℤ))) (x.map (colOf R.x0 R.dx (R.cols : ℤ)))]
  rw [List.zipWith_map]

/-- C1: for every valid grid geometry, a latitude in the topmost band maps
to row 0 and any in-envelope latitude in neither edge band maps to
`floor(nrows - (lat - min_lat)/dlat)`, as the claim states; but the claim
also demands that *every* latitude of the bottom band map to `nrows - 1`,
and for `nrows = 2` the two bands share the point
`lat = min_lat + dlat = max_lat - dlat`, where the code checks the topmost
band first and returns row 0, not `nrows - 1 = 1`. -/
theorem C1_claim_counterexample :
    (0 : ℚ) < 1 ∧ (0 : ℤ) < 2
    ∧ minLat 0 1 ≤ (1/2 : ℚ) ∧ (1/2 : ℚ) ≤ minLat 0 1 + 1
    ∧ find_indices (.scalar (1/2)) (.scalar (1/2)) 0 0 1 1 2 2
        = some (.scalar 0, .scalar 0)
    ∧ rowOf 0 1 2 (1/2) = 0
    ∧ rowOf 0 1 2 (1/2) ≠ 2 - 1 := by
  refine ⟨by norm_num, by norm_num, by norm_num [minLat], by norm_num [minLat], ?_, ?_, ?_⟩
  · norm_num [find_indices, rowOf, colOf, minLat, maxLat, minLon, maxLon]
  · norm_num [rowOf, minLat, maxLat]
  · norm_num [rowOf, minLat, maxLat]

/-- C1 (amended): for every grid geometry with positive spacings and
extents, a latitude in the topmost band maps to row 0; a latitude in the
bottom band *that is not also in the topmost band* (the bands overlap when
`nrows ≤ 2`; the topmost rule is checked first and wins) maps to row
`nrows - 1`; any other in-envelope latitude maps to
`floor(nrows - (lat - min_lat)/dlat)`.  Symmetrically eastward for
columns, except that there the *leftmost* band rule is checked first and
wins on overlap: a longitude in the leftmost band maps to column 0, one in
the rightmost band not also in the leftmost maps to `ncols - 1`, interior
points to `floor((lon - min_lon)/dlon)`.  In particular, on the grid
`lat0 = -10, lon0 = 20, dlat = dlon = 1, nrows = ncols = 5`, the query
`(-10, 20)` resolves to row 4, column 0, and a query exactly at
`max_lat = -5.5` resolves to row 0, not -999. -/
theorem C1_band_assignment_amended :
    (∀ (lat0 dlat : ℚ) (nrows : ℤ) (lat : ℚ), 0 < dlat → 0 < nrows →
      ((maxLat lat0 dlat nrows - dlat ≤ lat ∧ lat ≤ maxLat lat0 dlat nrows) →
        rowOf lat0 dlat nrows lat = 0)
      ∧ ((minLat lat0 dlat ≤ lat ∧ lat ≤ minLat lat0 dlat + dlat) →
          ¬(maxLat lat0 dlat nrows - dlat ≤ lat ∧ lat ≤ maxLat lat0 dlat nrows) →
          rowOf lat0 dlat nrows lat = nrows - 1)
      ∧ (minLat lat0 dlat ≤ lat → lat ≤ maxLat lat0 dlat nrows →
          ¬(maxLat lat0 dlat nrows - dlat ≤ lat ∧ lat ≤ maxLat lat0 dlat nrows) →
          ¬(minLat lat0 dlat ≤ lat ∧ lat ≤ minLat lat0 dlat + dlat) →
          rowOf lat0 dlat nrows lat = ⌊(nrows : ℚ) - (lat - minLat lat0 dlat) / dlat⌋))
    ∧ (∀ (lon0 dlon : ℚ) (ncols : ℤ) (lon : ℚ), 0 < dlon → 0 < ncols →
      ((minLon lon0 dlon ≤ lon ∧ lon ≤ minLon lon0 dlon + dlon) →
        colOf lon0 dlon ncols lon = 0)
      ∧ ((maxLon lon0 dlon ncols - dlon ≤ lon ∧ lon ≤ maxLon lon0 dlon ncols) →
          ¬(minLon lon0 dlon ≤ lon ∧ lon ≤ minLon lon0 dlon + dlon) →
          colOf lon0 dlon ncols lon = ncols - 1)
      ∧ (minLon lon0 dlon ≤ lon → lon ≤ maxLon lon0 dlon ncols →
          ¬(minLon lon0 dlon ≤ lon ∧ lon ≤ minLon lon0 dlon + dlon) →
          ¬(maxLon lon0 dlon ncols - dlon ≤ lon ∧ lon ≤ maxLon lon0 dlon ncols) →
          colOf lon0 dlon ncols lon = ⌊(lon - minLon lon0 dlon) / dlon⌋))
    ∧ find_indices (.scalar (-10)) (.scalar 20) (-10) 20 1 1 5 5
        = some (.scalar 4, .scalar 0)
    ∧ rowOf (-10) 1 5 (-(11/2)) = 0
    ∧ rowOf (-10) 1 5 (-(11/2)) ≠ -999 := by
  refine ⟨?_, ?_, ?_, ?_, ?_⟩
  · intro lat0 dlat nrows lat hd hn
    exact ⟨rowOf_top lat0 dlat nrows lat hd hn,
           fun hb hnt => rowOf_bottom lat0 dlat nrows lat hd hn hb hnt,
           fun hl hu hnt hnb => rowOf_mid lat0 dlat nrows lat ⟨hl, hu⟩ hnt hnb⟩
  · intro lon0 dlon ncols lon hd hn
    exact ⟨colOf_first lon0 dlon ncols lon hd hn,
           fun hb hnf => colOf_last lon0 dlon ncols lon hd hn hb hnf,
           fun hl hu hnf hnl => colOf_mid lon0 dlon ncols lon ⟨hl, hu⟩ hnf hnl⟩
  · norm_num [find_indices, rowOf, colOf, minLat, maxLat, minLon, maxLon]
  · norm_num [rowOf, minLat, maxLat]
  · norm_num [rowOf, minLat, maxLat]

/-- Witness for C1: the amended band rules applied at the concrete grid
`lat0 = -10, dlat = 1, nrows = 5` and the bottom-band latitude `-10`. -/
theorem C1_band_assignment_witness :
    rowOf (-10) 1 5 (-10) = 5 - 1 := by
  have h := (C1_band_assignment_amended.1 (-10) 1 5 (-10) (by norm_num) (by norm_num)).2.1
  exact h (by norm_num [minLat]) (by norm_num [maxLat, minLat])

/-- C2: any point strictly inside the grid envelope gets a row index in
`[0, nrows)` and a column index in `[0, ncols)` from `find_indices`. -/
theorem C2_inside_envelope_in_bounds :
    ∀ (lat0 lon0 dlat dlon : ℚ) (nrows ncols : ℤ) (lat lon : ℚ),
      0 < dlat → 0 < dlon → 0 < nrows → 0 < ncols →
      minLat lat0 dlat < lat → lat < maxLat lat0 dlat nrows →
      minLon lon0 dlon < lon → lon < maxLon lon0 dlon ncols →
      find_indices (.scalar lat) (.scalar lon) lat0 lon0 dlat dlon nrows ncols
        = some (.scalar (rowOf lat0 dlat nrows lat), .scalar (colOf lon0 dlon ncols lon))
      ∧ 0 ≤ rowOf lat0 dlat nrows lat ∧ rowOf lat0 dlat nrows lat < nrows
      ∧ 0 ≤ colOf lon0 dlon ncols lon ∧ colOf lon0 dlon ncols lon < ncols := by
  intro lat0 lon0 dlat dlon nrows ncols lat lon hdlat hdlon hnr hnc hl hu hl2 hu2
  have hr := rowOf_bounds lat0 dlat nrows lat hdlat hnr (le_of_lt hl) (le_of_lt hu)
  have hc := colOf_bounds lon0 dlon ncols lon hdlon hnc (le_of_lt hl2) (le_of_lt hu2)
  exact ⟨rfl, hr.1, hr.2, hc.1, hc.2⟩

/-- Witness for C2: the strictly interior point `(-8, 22)` of the grid
`lat0 = -10, lon0 = 20, dlat = dlon = 1, nrows = ncols = 5` gets in-range
indices. -/
theorem C2_inside_envelope_witness :
    0 ≤ rowOf (-10) 1 5 (-8) ∧ rowOf (-10) 1 5 (-8) < 5
    ∧ 0 ≤ colOf 20 1 5 22 ∧ colOf 20 1 5 22 < 5 :=
  (C2_inside_envelope_in_bounds (-10) 20 1 1 5 5 (-8) 22
    (by norm_num) (by norm_num) (by norm_num) (by norm_num)
    (by norm_num [minLat]) (by norm_num [maxLat, minLat])
    (by norm_num [minLon]) (by norm_num [maxLon, minLon])).2

/-- C3: for every input point (under the grid invariant of positive
spacings and extents), `find_indices` returns (without raising: its result
is always `some` on matched inputs) the row sentinel -999 exactly when
`lat < min_lat` or `lat > max_lat` and the column sentinel exactly when
`lon < min_lon` or `lon > max_lon`, each axis independently of the other;
the two concrete conjuncts show a sentinel row paired with a valid column
and vice versa. -/
theorem C3_sentinel_iff_out_of_region :
    (∀ (lat0 lon0 dlat dlon : ℚ) (nrows ncols : ℤ) (lat lon : ℚ),
      0 < dlat → 0 < dlon → 0 < nrows → 0 < ncols →
      find_indices (.scalar lat) (.scalar lon) lat0 lon0 dlat dlon nrows ncols
        = some (.scalar (rowOf lat0 dlat nrows lat), .scalar (colOf lon0 dlon ncols lon))
      ∧ (rowOf lat0 dlat nrows lat = -999 ↔
          lat < minLat lat0 dlat ∨ maxLat lat0 dlat nrows < lat)
      ∧ (colOf lon0 dlon ncols lon = -999 ↔
          lon < minLon lon0 dlon ∨ maxLon lon0 dlon ncols < lon))
    ∧ find_indices (.scalar 100) (.scalar 20) (-10) 20 1 1 5 5
        = some (.scalar (-999), .scalar 0)
    ∧ find_indices (.scalar (-10)) (.scalar 100) (-10) 20 1 1 5 5
        = some (.scalar 4, .scalar (-999)) := by
  refine ⟨?_, ?_, ?_⟩
  · intro lat0 lon0 dlat dlon nrows ncols lat lon hdlat hdlon hnr hnc
    exact ⟨rfl, rowOf_sentinel_iff lat0 dlat nrows lat hdlat hnr,
           colOf_sentinel_iff lon0 dlon ncols lon hdlon hnc⟩
  · norm_num [find_indices, rowOf, colOf, minLat, maxLat, minLon, maxLon]
  · norm_num [find_indices, rowOf, colOf, minLat, maxLat, minLon, maxLon]

/-- Witness for C3: the sentinel characterisation applied at the concrete
grid `lat0 = -10, lon0 = 20, dlat = dlon = 1, nrows = ncols = 5` and the
point `(100, 20)`, whose latitude is north of the envelope. -/
theorem C3_sentinel_witness :
    rowOf (-10) 1 5 100 = -999 ↔
      (100 : ℚ) < minLat (-10) 1 ∨ maxLat (-10) 1 5 < 100 :=
  ((C3_sentinel_iff_out_of_region.1 (-10) 20 1 1 5 5 100 20
    (by norm_num) (by norm_num) (by norm_num) (by norm_num)).2).1

/-- C8: shape symmetry of `find_indices`.  Two sequence inputs produce two
index sequences whose entries are, in input order, the per-point row and
column indices, with the lengths of the inputs; two scalar inputs produce
two scalar indices. -/
theorem C8_shape_symmetry :
    (∀ (lat0 lon0 dlat dlon : ℚ) (nrows ncols : ℤ) (lats lons : List ℚ),
      find_indices (.vec lats) (.vec lons) lat0 lon0 dlat dlon nrows ncols
        = some (.vec (lats.map (rowOf lat0 dlat nrows)),
                .vec (lons.map (colOf lon0 dlon ncols)))
      ∧ (lats.map (rowOf lat0 dlat nrows)).length = lats.length
      ∧ (lons.map (colOf lon0 dlon ncols)).length = lons.length)
    ∧ (∀ (lat0 lon0 dlat dlon : ℚ) (nrows ncols : ℤ) (lat lon : ℚ),
      find_indices (.scalar lat) (.scalar lon) lat0 lon0 dlat dlon nrows ncols
        = some (.scalar (rowOf lat0 dlat nrows lat),
                .scalar (colOf lon0 dlon ncols lon))) := by
  refine ⟨?_, fun _ _ _ _ _ _ _ _ => rfl⟩
  intro lat0 lon0 dlat dlon nrows ncols lats lons
  exact ⟨rfl, List.length_map lats _, List.length_map lons _⟩

/-- C9: on sequence inputs the row indices depend only on the latitude
inputs and the latitude geometry, and the column indices only on the
longitude inputs and the longitude geometry: replacing the longitude data
(`lons`, `lon0`, `dlon`, `ncols`) leaves the row component unchanged, and
replacing the latitude data leaves the column component unchanged. -/
theorem C9_axis_independence :
    ∀ (lat0 lon0 lon0A dlat dlon dlonA : ℚ) (nrows ncols ncolsA : ℤ)
      (lats latsB lons lonsA : List ℚ),
      Option.map Prod.fst
        (find_indices (.vec lats) (.vec lons) lat0 lon0 dlat dlon nrows ncols)
        = Option.map Prod.fst
          (find_indices (.vec lats) (.vec lonsA) lat0 lon0A dlat dlonA nrows ncolsA)
      ∧ Option.map Prod.snd
        (find_indices (.vec lats) (.vec lons) lat0 lon0 dlat dlon nrows ncols)
        = Option.map Prod.snd
          (find_indices (.vec latsB) (.vec lons) lat0 lon0 dlat dlon nrows ncols) := by
  intro lat0 lon0 lon0A dlat dlon dlonA nrows ncols ncolsA lats latsB lons lonsA
  exact ⟨rfl, rfl⟩

/-- C4: contrary to the claim (and to the docstring of `subset`, which
promises "a copy of the relevant portion of data"), the Raster returned by
`subset` shares the source buffer: `self[min_row:max_row, min_col:max_col]`
is a basic-slicing view and `np.asarray(data).view(cls)` in the
constructor copies nothing.  Every successful subset aliases the source
buffer, and concretely, writing 99 into element (0,0) of
`testRaster.subset 0 0 1 1` changes element (0,0) of `testRaster` from 10
to 99. -/
theorem C4_subset_aliases_source :
    (∀ (R : Raster) (a b c d : ℚ) (S : Raster),
      R.subset a b c d = .ok S → S.view.buf = R.view.buf)
    ∧ testRaster.subset 0 0 1 1 = .ok subTest
    ∧ subTest.view.buf = testRaster.view.buf
    ∧ readView testHeap testRaster.view 0 0 = 10
    ∧ readView (writeView testHeap subTest.view 0 0 99) testRaster.view 0 0 = 99
    ∧ (99 : ℚ) ≠ 10 := by
  refine ⟨?_, ?_, rfl, by norm_num [readView, testHeap, testRaster, testView], ?_, by norm_num⟩
  · intro R a b c d S hS
    by_cases ho : R.origin = "Lower"
    · rw [subset_eq R a b c d ho, ho] at hS
      simp only [Raster.new, ne_eq, not_true_eq_false, ite_false, if_neg,
        Except.ok.injEq] at hS
      rw [← hS]
      rfl
    · rw [subset_err R a b c d ho] at hS
      exact absurd hS (by simp)
  · rw [subset_eq testRaster 0 0 1 1 rfl]
    norm_num [Raster.new, pySlice, resolveIdx, rowOf, colOf, minLat, maxLat, minLon, maxLon,
      testRaster, testView, subTest]
  · norm_num [readView, writeView, testHeap, testRaster, testView, subTest]

/-- C5: for a Raster with origin Lower, `subset` takes its row and column
windows from one 2-point `find_indices` query on the corners
`(max_y, min_x)` and `(min_y, max_x)` (first conjunct: the unpacked values
are exactly the per-corner indices), and returns a new Raster whose buffer
is the half-open slice `[min_row:max_row, min_col:max_col]` of the source
buffer, whose `x0` is `x0 + min_col*dx`, whose `y0` is
`y0 + (rows - 1 - max_row)*dy`, and whose `dx`, `dy` and origin equal the
source's.  The second conjunct makes the slice explicit at element level
(element `(i, j)` of the slice is element `(min_row + i, min_col + j)` of
the source buffer) and the third gives the half-open slice lengths. -/
theorem C5_subset_window_geometry :
    (∀ (R : Raster) (min_x min_y max_x max_y : ℚ) (mr Mr mc Mc : ℤ),
      R.origin = "Lower" →
      find_indices (.vec [max_y, min_y]) (.vec [min_x, max_x]) R.y0 R.x0 R.dy R.dx
          (R.rows : ℤ) (R.cols : ℤ) = some (.vec [mr, Mr], .vec [mc, Mc]) →
      (mr = rowOf R.y0 R.dy (R.rows : ℤ) max_y ∧ Mr = rowOf R.y0 R.dy (R.rows : ℤ) min_y
        ∧ mc = colOf R.x0 R.dx (R.cols : ℤ) min_x ∧ Mc = colOf R.x0 R.dx (R.cols : ℤ) max_x)
      ∧ R.subset min_x min_y max_x max_y = .ok
          { view := pySlice R.view mr Mr mc Mc,
            rows := (pySlice R.view mr Mr mc Mc).rows,
            cols := (pySlice R.view mr Mr mc Mc).cols,
            x0 := R.x0 + ((mc : ℤ) : ℚ) * R.dx,
            y0 := R.y0 + ((((R.rows : ℤ) - 1 - Mr) : ℤ) : ℚ) * R.dy,
            dx := R.dx, dy := R.dy, origin := R.origin })
    ∧ (∀ (R : Raster) (mr Mr mc Mc : ℤ) (i j : ℕ) (h : Heap),
        0 ≤ mr → mr ≤ (R.view.rows : ℤ) → 0 ≤ mc → mc ≤ (R.view.cols : ℤ) →
        readView h (pySlice R.view mr Mr mc Mc) i j
          = readView h R.view (mr.toNat + i) (mc.toNat + j))
    ∧ (∀ (v : NDView) (mr Mr mc Mc : ℤ),
        0 ≤ mr → mr ≤ Mr → Mr ≤ (v.rows : ℤ) → 0 ≤ mc → mc ≤ Mc → Mc ≤ (v.cols : ℤ) →
        ((pySlice v mr Mr mc Mc).rows : ℤ) = Mr - mr
        ∧ ((pySlice v mr Mr mc Mc).cols : ℤ) = Mc - mc) := by
  refine ⟨?_, ?_, ?_⟩
  · intro R min_x min_y max_x max_y mr Mr mc Mc ho hfind
    simp only [find_indices, List.map, Option.some.injEq, Prod.mk.injEq, PyIdx.vec.injEq,
      List.cons.injEq, and_true] at hfind
    obtain ⟨⟨h1, h2⟩, h3, h4⟩ := hfind
    subst h1 h2 h3 h4
    refine ⟨⟨rfl, rfl, rfl, rfl⟩, ?_⟩
    rw [subset_eq R min_x min_y max_x max_y ho, ho]
    simp only [Raster.new, ne_eq, not_true_eq_false, ite_false, if_neg]
  · intro R mr Mr mc Mc i j h h1 h2 h3 h4
    simp only [readView, pySlice, resolveIdx_of_nonneg _ _ h1 h2, resolveIdx_of_nonneg _ _ h3 h4]
    ring_nf
  · intro v mr Mr mc Mc h1 h2 h3 h4 h5 h6
    simp only [pySlice, resolveIdx_of_nonneg _ _ h1 (le_trans h2 h3),
      resolveIdx_of_nonneg _ _ (le_trans h1 h2) h3,
      resolveIdx_of_nonneg _ _ h4 (le_trans h5 h6),
      resolveIdx_of_nonneg _ _ (le_trans h4 h5) h6]
    omega

/-- Witness for C5: the 2-point corner query of
`testRaster.subset 0 0 1 1` unpacks to `(0, 1, 0, 1)` and the returned
Raster is exactly `subTest`. -/
theorem C5_subset_witness :
    testRaster.subset 0 0 1 1 = .ok subTest := by
  have h := (C5_subset_window_geometry.1 testRaster 0 0 1 1 0 1 0 1 rfl
    (by norm_num [find_indices, rowOf, colOf, minLat, maxLat, minLon, maxLon,
      testRaster, testView])).2
  rw [h]
  norm_num [subTest, pySlice, resolveIdx, testRaster, testView]

/-- C6: for an origin-Lower float Raster and equal-length coordinate
lists, `sample` returns a list of the length of `x` whose entry for each
input position holds the buffer value at the resolved (row, column) when
both indices are in-region and the no-data value -999 otherwise, in input
order; in particular, the four corner-cell centres of `testRaster` return
the four corner buffer values in input order, and one in-region point
followed by one far out-of-region point returns the correct value followed
by the sentinel. -/
theorem C6_sample_values_order :
    (∀ (h : Heap) (R : Raster) (x y : List ℚ),
      R.origin = "Lower" → R.view.dtype = .float → x.length = y.length →
      R.sample h x y = .ok (List.zipWith
        (fun yv xv =>
          if rowOf R.y0 R.dy (R.rows : ℤ) yv ≠ -999 ∧ colOf R.x0 R.dx (R.cols : ℤ) xv ≠ -999
          then fancyGet h R.view (rowOf R.y0 R.dy (R.rows : ℤ) yv)
            (colOf R.x0 R.dx (R.cols : ℤ) xv)
          else -999) y x)
      ∧ (List.zipWith
          (fun yv xv =>
            if rowOf R.y0 R.dy (R.rows : ℤ) yv ≠ -999 ∧ colOf R.x0 R.dx (R.cols : ℤ) xv ≠ -999
            then fancyGet h R.view (rowOf R.y0 R.dy (R.rows : ℤ) yv)
              (colOf R.x0 R.dx (R.cols : ℤ) xv)
            else -999) y x).length = x.length)
    ∧ testRaster.sample testHeap [0, 1, 0, 1] [0, 0, 1, 1] = .ok [30, 40, 10, 20]
    ∧ testRaster.sample testHeap [0, 100] [0, 0] = .ok [30, -999] := by
  refine ⟨?_, ?_, ?_⟩
  · intro h R x y ho hd hlen
    constructor
    · rw [sample_spec R h x y ho hlen, hd]
      norm_num [dtypeScalar]
    · simp only [List.length_zipWith]
      omega
  · rw [sample_spec testRaster testHeap [0, 1, 0, 1] [0, 0, 1, 1] rfl rfl]
    norm_num [testRaster, testView, testHeap, rowOf, colOf, minLat, maxLat, minLon, maxLon,
      fancyGet, readView, pyIndex, dtypeScalar, List.zipWith]
  · rw [sample_spec testRaster testHeap [0, 100] [0, 0] rfl rfl]
    norm_num [testRaster, testView, testHeap, rowOf, colOf, minLat, maxLat, minLon, maxLon,
      fancyGet, readView, pyIndex, dtypeScalar, List.zipWith]

/-- Witness for C6: the elementwise description applied to `testRaster`
at the single upper-right cell centre `(1, 1)` yields the buffer value
20. -/
theorem C6_sample_witness :
    testRaster.sample testHeap [1] [1] = .ok [20] := by
  have h := (C6_sample_values_order.1 testHeap testRaster [1] [1] rfl rfl rfl).1
  rw [h]
  norm_num [testRaster, testView, testHeap, rowOf, colOf, minLat, maxLat, minLon, maxLon,
    fancyGet, readView, pyIndex, List.zipWith]

/-- C7: constructing a Raster with any origin other than `Lower`
fails immediately with the unsupported-origin construction error (the
`NotImplementedError` raise of `Raster.__new__`; the spec names this
failure `UnsupportedOriginError`), including `origin = Upper`, and no
Raster is produced; with origin `Lower` construction succeeds and `rows`
and `cols` are the two components of the buffer shape. -/
theorem C7_construction_origin_check :
    (∀ (v : NDView) (x0 y0 dx dy : ℚ) (origin : String),
      origin ≠ "Lower" →
      Raster.new v x0 y0 dx dy origin
        = .error (.notImplementedError (origin ++ " is not a suitable origin")))
    ∧ Raster.new testView 0 0 1 1 "Upper"
        = .error (.notImplementedError "Upper is not a suitable origin")
    ∧ (∀ (v : NDView) (x0 y0 dx dy : ℚ),
      Raster.new v x0 y0 dx dy "Lower"
        = .ok { view := v, rows := v.rows, cols := v.cols,
                x0 := x0, y0 := y0, dx := dx, dy := dy, origin := "Lower" }) := by
  refine ⟨?_, ?_, ?_⟩
  · intro v x0 y0 dx dy origin ho
    simp [Raster.new, ho]
  · simp only [Raster.new, ne_eq]
    rw [if_pos (by decide)]
    rfl
  · intro v x0 y0 dx dy
    simp [Raster.new]

/-- Witness for C7: construction with the unsupported origin `Foo` fails
with the construction error. -/
theorem C7_construction_witness :
    Raster.new testView 0 0 1 1 "Foo"
      = .error (.notImplementedError ("Foo" ++ " is not a suitable origin")) :=
  C7_construction_origin_check.1 testView 0 0 1 1 "Foo" (by decide)

/-- C10: `sample` fills its result with `np.ones(len(x), dtype) * -999`,
so the out-of-region marker is -999 converted into the buffer dtype: for a
`w`-bit unsigned dtype every out-of-region entry equals `-999 mod 2^w`
(the general conjunct), concretely 25 for uint8 — not -999 — while for
float buffers it equals -999. -/
theorem C10_sample_nodata_dtype :
    (∀ (h : Heap) (R : Raster) (x y : List ℚ) (w : ℕ),
      R.origin = "Lower" → R.view.dtype = .uint w → x.length = y.length →
      R.sample h x y = .ok (List.zipWith
        (fun yv xv =>
          if rowOf R.y0 R.dy (R.rows : ℤ) yv ≠ -999 ∧ colOf R.x0 R.dx (R.cols : ℤ) xv ≠ -999
          then fancyGet h R.view (rowOf R.y0 R.dy (R.rows : ℤ) yv)
            (colOf R.x0 R.dx (R.cols : ℤ) xv)
          else (((-999 : ℤ) % (2 ^ w : ℤ) : ℤ) : ℚ)) y x))
    ∧ dtypeScalar (.uint 8) (1 * (-999)) = 25
    ∧ (25 : ℚ) ≠ -999
    ∧ uintRaster.sample uintHeap [100] [0] = .ok [25]
    ∧ dtypeScalar .float (1 * (-999)) = -999
    ∧ testRaster.sample testHeap [100] [0] = .ok [-999] := by
  refine ⟨?_, by decide, by norm_num, ?_, by norm_num [dtypeScalar], ?_⟩
  · intro h R x y w ho hd hlen
    rw [sample_spec R h x y ho hlen, hd]
    norm_num [dtypeScalar]
  · rw [sample_spec uintRaster uintHeap [100] [0] rfl rfl]
    norm_num [uintRaster, uintHeap, rowOf, colOf, minLat, maxLat, minLon, maxLon,
      fancyGet, readView, pyIndex, dtypeScalar, List.zipWith]
  · rw [sample_spec testRaster testHeap [100] [0] rfl rfl]
    norm_num [testRaster, testView, testHeap, rowOf, colOf, minLat, maxLat, minLon, maxLon,
      fancyGet, readView, pyIndex, dtypeScalar, List.zipWith]

/-- Witness for C10: the uint-dtype description applied to `uintRaster`
at one out-of-region point: the single entry is `-999 mod 2^8`. -/
theorem C10_sample_nodata_witness :
    uintRaster.sample uintHeap [100] [0] = .ok [(((-999 : ℤ) % (2 ^ 8 : ℤ) : ℤ) : ℚ)] := by
  have h := C10_sample_nodata_dtype.1 uintHeap uintRaster [100] [0] 8 rfl rfl rfl
  rw [h]
  norm_num [uintRaster, uintHeap, rowOf, colOf, minLat, maxLat, minLon, maxLon,
    fancyGet, readView, pyIndex, List.zipWith]

end SAHGutils
